import Mathlib

/-!
Verification of the single-file ReAct agent (`src/single_file_agent/agent.ts`).

The development shallowly embeds the agent core:
* the JavaScript regular expressions used by the agent
  (`/Action:\s*([^\[]+)\[([^\]]+)\]/` and `/Answer:\s*(.*)$/`, both without
  the `m` flag, with JavaScript first-match/backtracking semantics),
* the Calculator tool (character whitelist, then evaluation of the
  expression by the JavaScript engine; numbers are modelled as rationals
  extended with Infinity, -Infinity and NaN, which is exact for every
  expression considered here — IEEE rounding, signed zero, the `**`
  operator and legacy octal literals are outside the fragment any claim
  exercises and are not modelled),
* the three workflow nodes `parse_input`, `tool_executor` and
  `response_generator`, and the LangGraph wiring
  (`workflow.addEdge("parse_input", "tool_executor")`,
  `workflow.addEdge("tool_executor", "response_generator")`, and the
  conditional edge back to `parse_input` or to END) as a small-step state
  machine; the external model service (`callOpenRouter`) is an oracle
  giving one assistant reply per invocation index.
-/

/-! ## JavaScript character classes -/

/-- The JavaScript `\s` character class (also exactly the set removed by
`String.prototype.trim`): whitespace and line terminators. -/
def isJsSpace (c : Char) : Bool :=
  c == ' ' || c == '\t' || c == '\n' || c == '\r' ||
  c.val == 11 || c.val == 12 ||
  c.val == 0xA0 || c.val == 0x1680 ||
  (0x2000 ≤ c.val && c.val ≤ 0x200A) ||
  c.val == 0x2028 || c.val == 0x2029 ||
  c.val == 0x202F || c.val == 0x205F || c.val == 0x3000 || c.val == 0xFEFF

/-- JavaScript line terminators, the characters `.` does not match. -/
def isLineTerm (c : Char) : Bool :=
  c == '\n' || c == '\r' || c.val == 0x2028 || c.val == 0x2029

/-- `String.prototype.trim` on a character list: strip `isJsSpace`
characters from both ends. -/
def jsTrimChars (l : List Char) : List Char :=
  ((l.dropWhile isJsSpace).reverse.dropWhile isJsSpace).reverse

/-- `String.prototype.trim`. -/
def jsTrimStr (s : String) : String :=
  String.mk (jsTrimChars s.data)

/-- `String.prototype.toLowerCase` (ASCII fragment; every tool name in the
registry is ASCII). -/
def strLower (s : String) : String :=
  String.mk (s.data.map Char.toLower)

/-! ## The action regular expression

`lastMessage.content.match(/Action:\s*([^\[]+)\[([^\]]+)\]/)`.

JavaScript scans for the leftmost start position at which the whole pattern
matches; only occurrences of the literal `Action:` can start a match.  At a
given occurrence, `\s*` is greedy, group 1 `([^\[]+)` then necessarily runs
to the first `[` after it, and group 2 `([^\]]+)` runs to the first `]`
after that `[`; the only successful backtracking is that when `\s*` swallows
everything up to the `[`, giving group 1 nothing, one trailing whitespace
character is handed back to group 1. -/

/-- Split a character list at the first occurrence of `t`: returns the part
before and the part after the first `t`, or `none` when `t` is absent. -/
def splitAtFirst (t : Char) : List Char → Option (List Char × List Char)
  | [] => none
  | c :: cs =>
    if c = t then some ([], cs)
    else (splitAtFirst t cs).map (fun p => (c :: p.1, p.2))

/-- Attempt the part of the action pattern after the literal `Action:`,
on the suffix that follows it. -/
def tryActionAt (l : List Char) : Option (String × String) :=
  match splitAtFirst '[' l with
  | none => none
  | some (pre, rest) =>
    if hpre : pre = [] then none
    else
      let g1 := pre.dropWhile isJsSpace
      let nameChars := if g1 = [] then [pre.getLast hpre] else g1
      match splitAtFirst ']' rest with
      | none => none
      | some (argChars, _) =>
        if argChars = [] then none
        else some (String.mk nameChars, String.mk argChars)

/-- Leftmost match of the action pattern: scan for occurrences of
`Action:`, and at each one try the rest of the pattern; on failure continue
with the next occurrence, as the JavaScript engine does. -/
def findActionFrom : List Char → Option (String × String)
  | [] => none
  | c :: cs =>
    if "Action:".data.isPrefixOf (c :: cs) then
      match tryActionAt ((c :: cs).drop 7) with
      | some r => some r
      | none => findActionFrom cs
    else findActionFrom cs

/-- `content.match(/Action:\s*([^\[]+)\[([^\]]+)\]/)`, returning the two
captured groups of the first match. -/
def firstActionMatch (s : String) : Option (String × String) :=
  findActionFrom s.data

/-! ## The answer regular expression

`lastMessage.content.match(/Answer:\s*(.*)$/)` — no `m` flag, so `$` is the
end of the whole string and `.` excludes line terminators.  An occurrence of
`Answer:` matches exactly when the text after its maximal `\s` run contains
no line terminator, and that text is the captured group; otherwise the
engine moves on to the next occurrence. -/

/-- Leftmost match of the answer pattern, returning the captured group. -/
def findAnswerFrom : List Char → Option String
  | [] => none
  | c :: cs =>
    if "Answer:".data.isPrefixOf (c :: cs) then
      let t := ((c :: cs).drop 7).dropWhile isJsSpace
      if t.all (fun ch => !(isLineTerm ch)) then some (String.mk t)
      else findAnswerFrom cs
    else findAnswerFrom cs

/-- `content.match(/Answer:\s*(.*)$/)`, returning the captured group of the
first match. -/
def answerMatch (s : String) : Option String :=
  findAnswerFrom s.data

/-! ## JavaScript numbers and arithmetic

The Calculator evaluates its validated input with
`Function("return (" + input + ")")()`.  Over the whitelisted characters
this is JavaScript arithmetic on numbers.  `JSNum` is the exact model:
rationals (as explicit, not-necessarily-reduced fractions with positive
denominator) extended with the three special values. -/

/-- An exact fraction: numerator and (positive) denominator.  Explicit
fractions are used instead of `ℚ` so that every arithmetic step reduces in
the kernel. -/
structure Frac where
  n : Int
  d : Nat
deriving DecidableEq, Repr

/-- The fraction `m / 1`. -/
def Frac.ofInt (m : Int) : Frac := ⟨m, 1⟩

/-- Fraction addition. -/
def Frac.add (a b : Frac) : Frac := ⟨a.n * b.d + b.n * a.d, a.d * b.d⟩

/-- Fraction multiplication. -/
def Frac.mul (a b : Frac) : Frac := ⟨a.n * b.n, a.d * b.d⟩

/-- Fraction negation. -/
def Frac.neg (a : Frac) : Frac := ⟨-a.n, a.d⟩

/-- Fraction division (caller guarantees `b.n ≠ 0`). -/
def Frac.div (a b : Frac) : Frac :=
  ⟨(if b.n < 0 then -1 else 1) * a.n * b.d, a.d * b.n.natAbs⟩

/-- A JavaScript number: a finite value, `Infinity`, `-Infinity` or `NaN`. -/
inductive JSNum where
  | num (q : Frac)
  | inf
  | neginf
  | nan
deriving DecidableEq, Repr

/-- JavaScript unary negation. -/
def JSNum.neg : JSNum → JSNum
  | JSNum.num q => JSNum.num q.neg
  | JSNum.inf => JSNum.neginf
  | JSNum.neginf => JSNum.inf
  | JSNum.nan => JSNum.nan

/-- JavaScript addition. -/
def JSNum.add : JSNum → JSNum → JSNum
  | JSNum.nan, _ => JSNum.nan
  | _, JSNum.nan => JSNum.nan
  | JSNum.inf, JSNum.neginf => JSNum.nan
  | JSNum.neginf, JSNum.inf => JSNum.nan
  | JSNum.inf, _ => JSNum.inf
  | _, JSNum.inf => JSNum.inf
  | JSNum.neginf, _ => JSNum.neginf
  | _, JSNum.neginf => JSNum.neginf
  | JSNum.num a, JSNum.num b => JSNum.num (a.add b)

/-- JavaScript subtraction: `a - b = a + (-b)`. -/
def JSNum.sub (a b : JSNum) : JSNum :=
  JSNum.add a (JSNum.neg b)

/-- JavaScript multiplication. -/
def JSNum.mul : JSNum → JSNum → JSNum
  | JSNum.nan, _ => JSNum.nan
  | _, JSNum.nan => JSNum.nan
  | JSNum.num a, JSNum.num b => JSNum.num (a.mul b)
  | JSNum.inf, JSNum.num b =>
    if b.n = 0 then JSNum.nan else if 0 < b.n then JSNum.inf else JSNum.neginf
  | JSNum.num a, JSNum.inf =>
    if a.n = 0 then JSNum.nan else if 0 < a.n then JSNum.inf else JSNum.neginf
  | JSNum.neginf, JSNum.num b =>
    if b.n = 0 then JSNum.nan else if 0 < b.n then JSNum.neginf else JSNum.inf
  | JSNum.num a, JSNum.neginf =>
    if a.n = 0 then JSNum.nan else if 0 < a.n then JSNum.neginf else JSNum.inf
  | JSNum.inf, JSNum.inf => JSNum.inf
  | JSNum.inf, JSNum.neginf => JSNum.neginf
  | JSNum.neginf, JSNum.inf => JSNum.neginf
  | JSNum.neginf, JSNum.neginf => JSNum.inf

/-- JavaScript division.  Division by zero does not throw: a nonzero finite
number divided by `0` is `Infinity` or `-Infinity`, and `0/0` is `NaN`. -/
def JSNum.div : JSNum → JSNum → JSNum
  | JSNum.nan, _ => JSNum.nan
  | _, JSNum.nan => JSNum.nan
  | JSNum.num a, JSNum.num b =>
    if b.n = 0 then
      (if a.n = 0 then JSNum.nan else if 0 < a.n then JSNum.inf else JSNum.neginf)
    else JSNum.num (a.div b)
  | JSNum.inf, JSNum.num b => if 0 ≤ b.n then JSNum.inf else JSNum.neginf
  | JSNum.neginf, JSNum.num b => if 0 ≤ b.n then JSNum.neginf else JSNum.inf
  | JSNum.num _, JSNum.inf => JSNum.num (Frac.ofInt 0)
  | JSNum.num _, JSNum.neginf => JSNum.num (Frac.ofInt 0)
  | _, _ => JSNum.nan

/-! ## Rendering: `String(result)` -/

/-- Decimal digits of `n`, left-padded with zeros to width `k`. -/
def natDecimalPad (k : Nat) (n : Nat) : String :=
  let s := toString n
  String.mk (List.replicate (k - s.length) '0') ++ s

/-- Decimal rendering of a fraction whose reduced denominator divides a
power of ten (the only finite values any claim evaluates); matches
JavaScript number-to-string for those values. -/
def fracDecimalString (f : Frac) : String :=
  let sign := if f.n < 0 then "-" else ""
  let g := Nat.gcd f.n.natAbs f.d
  let n := f.n.natAbs / g
  let d := f.d / g
  match (List.range 31).find? (fun k => 10 ^ k % d == 0) with
  | some k =>
    let m := n * 10 ^ k / d
    if k = 0 then sign ++ toString m
    else sign ++ toString (m / 10 ^ k) ++ "." ++ natDecimalPad k (m % 10 ^ k)
  | none => sign ++ toString n ++ "/" ++ toString d

/-- `String(result)` on a JavaScript number. -/
def jsNumToString : JSNum → String
  | JSNum.nan => "NaN"
  | JSNum.inf => "Infinity"
  | JSNum.neginf => "-Infinity"
  | JSNum.num q => fracDecimalString q

/-! ## Tokenizing the validated expression -/

/-- Tokens of the arithmetic fragment. -/
inductive Tok where
  | num (q : Frac)
  | plus
  | minus
  | star
  | slash
  | lparen
  | rparen
deriving DecidableEq, Repr

/-- A numeric literal being lexed: digits seen so far, whether a dot was
seen, integer part, fractional digits and their count. -/
structure NumBuild where
  hasDigit : Bool
  hasDot : Bool
  ip : Nat
  fp : Nat
  fl : Nat

/-- Value of a finished numeric literal: `ip + fp / 10 ^ fl`. -/
def NumBuild.val (b : NumBuild) : Frac :=
  ⟨(b.ip : Int) * (10 : Int) ^ b.fl + (b.fp : Int), 10 ^ b.fl⟩

/-- Finish a numeric literal: a lone `.` is a syntax error, as in
JavaScript. -/
def flushNum : Option NumBuild → Except String (List Tok)
  | none => Except.ok []
  | some b =>
    if b.hasDigit then Except.ok [Tok.num b.val]
    else Except.error "Unexpected token ."

/-- Lexer for the validated charset.  Adjacent `--` and `++` lex as
increment/decrement punctuators and are syntax errors here, as in
JavaScript; `**` (exponentiation) is rejected as outside the modelled
fragment (no claim exercises it). -/
def tokenizeAux : Option NumBuild → List Char → Except String (List Tok)
  | nb, [] => flushNum nb
  | nb, c :: cs =>
    if c.isDigit then
      let d := c.toNat - 48
      match nb with
      | none => tokenizeAux (some ⟨true, false, d, 0, 0⟩) cs
      | some b =>
        if b.hasDot then tokenizeAux (some ⟨true, true, b.ip, b.fp * 10 + d, b.fl + 1⟩) cs
        else tokenizeAux (some ⟨true, false, b.ip * 10 + d, 0, 0⟩) cs
    else if c = '.' then
      match nb with
      | none => tokenizeAux (some ⟨false, true, 0, 0, 0⟩) cs
      | some b =>
        if b.hasDot then
          match flushNum (some b) with
          | Except.error e => Except.error e
          | Except.ok ts => (tokenizeAux (some ⟨false, true, 0, 0, 0⟩) cs).map (fun r => ts ++ r)
        else tokenizeAux (some ⟨b.hasDigit, true, b.ip, 0, 0⟩) cs
    else
      match flushNum nb with
      | Except.error e => Except.error e
      | Except.ok ts =>
        if isJsSpace c then (tokenizeAux none cs).map (fun r => ts ++ r)
        else if c = '+' then
          match cs with
          | '+' :: _ => Except.error "Invalid left-hand side expression in prefix operation"
          | _ => (tokenizeAux none cs).map (fun r => ts ++ Tok.plus :: r)
        else if c = '-' then
          match cs with
          | '-' :: _ => Except.error "Invalid left-hand side expression in prefix operation"
          | _ => (tokenizeAux none cs).map (fun r => ts ++ Tok.minus :: r)
        else if c = '*' then
          match cs with
          | '*' :: _ => Except.error "Exponentiation is outside the modelled fragment"
          | _ => (tokenizeAux none cs).map (fun r => ts ++ Tok.star :: r)
        else if c = '/' then (tokenizeAux none cs).map (fun r => ts ++ Tok.slash :: r)
        else if c = '(' then (tokenizeAux none cs).map (fun r => ts ++ Tok.lparen :: r)
        else if c = ')' then (tokenizeAux none cs).map (fun r => ts ++ Tok.rparen :: r)
        else Except.error "Unexpected character"

/-! ## Evaluating the token stream (shunting-yard) -/

/-- Pending operators: binary `+ - * /`, unary prefix `+ -`, and an open
parenthesis marker. -/
inductive Op where
  | add
  | sub
  | mul
  | div
  | neg
  | pos
  | lpar
deriving DecidableEq, Repr

/-- Operator precedence: additive 1, multiplicative 2, unary prefix 3. -/
def Op.prec : Op → Nat
  | Op.add => 1
  | Op.sub => 1
  | Op.mul => 2
  | Op.div => 2
  | Op.neg => 3
  | Op.pos => 3
  | Op.lpar => 0

/-- Apply one pending operator to the value stack. -/
def applyOp : Op → List JSNum → Except String (List JSNum)
  | Op.neg, v :: vs => Except.ok (JSNum.neg v :: vs)
  | Op.pos, v :: vs => Except.ok (v :: vs)
  | Op.add, b :: a :: vs => Except.ok (JSNum.add a b :: vs)
  | Op.sub, b :: a :: vs => Except.ok (JSNum.sub a b :: vs)
  | Op.mul, b :: a :: vs => Except.ok (JSNum.mul a b :: vs)
  | Op.div, b :: a :: vs => Except.ok (JSNum.div a b :: vs)
  | _, _ => Except.error "Parse error"

/-- Pop and apply pending operators of precedence at least `p` (stopping at
an open parenthesis), before pushing a left-associative binary operator. -/
def popGE (p : Nat) : List Op → List JSNum → Except String (List Op × List JSNum)
  | [], vals => Except.ok ([], vals)
  | o :: os, vals =>
    if o = Op.lpar ∨ o.prec < p then Except.ok (o :: os, vals)
    else
      match applyOp o vals with
      | Except.ok vals2 => popGE p os vals2
      | Except.error e => Except.error e

/-- Pop and apply pending operators down to the matching open
parenthesis. -/
def popToParen : List Op → List JSNum → Except String (List Op × List JSNum)
  | [], _ => Except.error "Unexpected token )"
  | o :: os, vals =>
    if o = Op.lpar then Except.ok (os, vals)
    else
      match applyOp o vals with
      | Except.ok vals2 => popToParen os vals2
      | Except.error e => Except.error e

/-- Drain the operator stack at the end of input. -/
def syFinish : List Op → List JSNum → Except String JSNum
  | [], [v] => Except.ok v
  | [], _ => Except.error "Parse error"
  | o :: os, vals =>
    if o = Op.lpar then Except.error "Unexpected end of input"
    else
      match applyOp o vals with
      | Except.ok vals2 => syFinish os vals2
      | Except.error e => Except.error e

/-- Shunting-yard evaluation; `expectOperand` is true when the next token
must start an operand (so `+`/`-` there are unary, and a number or `(` is
accepted). -/
def syRun : List Tok → List Op → List JSNum → Bool → Except String JSNum
  | [], ops, vals, expectOperand =>
    if expectOperand then Except.error "Unexpected end of input"
    else syFinish ops vals
  | t :: ts, ops, vals, expectOperand =>
    match t with
    | Tok.num q =>
      if expectOperand then syRun ts ops (JSNum.num q :: vals) false
      else Except.error "Unexpected number"
    | Tok.lparen =>
      if expectOperand then syRun ts (Op.lpar :: ops) vals true
      else Except.error "Called value is not a function"
    | Tok.rparen =>
      if expectOperand then Except.error "Unexpected token )"
      else
        match popToParen ops vals with
        | Except.ok (ops2, vals2) => syRun ts ops2 vals2 false
        | Except.error e => Except.error e
    | Tok.plus =>
      if expectOperand then syRun ts (Op.pos :: ops) vals true
      else
        match popGE 1 ops vals with
        | Except.ok (ops2, vals2) => syRun ts (Op.add :: ops2) vals2 true
        | Except.error e => Except.error e
    | Tok.minus =>
      if expectOperand then syRun ts (Op.neg :: ops) vals true
      else
        match popGE 1 ops vals with
        | Except.ok (ops2, vals2) => syRun ts (Op.sub :: ops2) vals2 true
        | Except.error e => Except.error e
    | Tok.star =>
      if expectOperand then Except.error "Unexpected token *"
      else
        match popGE 2 ops vals with
        | Except.ok (ops2, vals2) => syRun ts (Op.mul :: ops2) vals2 true
        | Except.error e => Except.error e
    | Tok.slash =>
      if expectOperand then Except.error "Unexpected token /"
      else
        match popGE 2 ops vals with
        | Except.ok (ops2, vals2) => syRun ts (Op.div :: ops2) vals2 true
        | Except.error e => Except.error e

/-- Evaluation of a JavaScript arithmetic expression string; the model of
what `Function("return (" + input + ")")()` computes on the whitelisted
charset (a thrown `SyntaxError`/`TypeError` becomes `Except.error`; message
texts are engine specific and only their presence matters). -/
def jsEvalString (s : String) : Except String JSNum :=
  match tokenizeAux none s.data with
  | Except.error e => Except.error e
  | Except.ok ts => syRun ts [] [] true

/-! ## The Calculator tool -/

/-- One whitelisted character of `/^[0-9.+\-*\/()\s]+$/`. -/
def calcCharOk (c : Char) : Bool :=
  c.isDigit || c == '.' || c == '+' || c == '-' || c == '*' || c == '/' ||
  c == '(' || c == ')' || isJsSpace c

/-- `/^[0-9.+\-*\/()\s]+$/.test(input)`: nonempty and every character
whitelisted. -/
def calcValid (input : String) : Bool :=
  !input.data.isEmpty && input.data.all calcCharOk

/-- The Calculator body, parametrised by the expression evaluator (the
parameter makes "no evaluation is attempted on rejected input" a theorem:
the rejection branch is the same for every evaluator).  Source:
`Calculator.run` — whitelist test, then
`Function("return (" + input + ")")()` and `String(result)`, with thrown
errors caught as `"Error: " + message`. -/
def calculatorRunWith (ev : String → Except String JSNum) (input : String) : String :=
  if calcValid input then
    match ev ("(" ++ input ++ ")") with
    | Except.ok v => jsNumToString v
    | Except.error m => "Error: " ++ m
  else "Invalid expression"

/-- `Calculator.run` from the source. -/
def calculatorRun (input : String) : String :=
  calculatorRunWith jsEvalString input

/-- Boolean string-prefix test (on the underlying character lists, so that
it evaluates in the kernel). -/
def strHasPrefix (p s : String) : Bool :=
  p.data.isPrefixOf s.data

/-! ## The agent data model -/

/-- Message roles (`ChatMessage.role`). -/
inductive Role where
  | system
  | user
  | assistant
deriving DecidableEq, Repr

/-- `ChatMessage` from the source. -/
structure ChatMessage where
  role : Role
  content : String
deriving DecidableEq, Repr

/-- `Tool` from the source.  `run` may fail (a thrown exception is
`Except.error` carrying the exception message). -/
structure Tool where
  name : String
  description : String
  run : String → Except String String

/-- `AgentState` from the source; `final_answer?` is `none` while absent. -/
structure AgentState where
  messages : List ChatMessage
  tools : List Tool
  current_step : Nat
  final_answer : Option String

/-- The tool registry: the `tools` array of the source, holding the
Calculator (whose `run` never throws — its errors are returned as result
text). -/
def agentTools : List Tool :=
  [{ name := "Calculator",
     description := "Performs arithmetic calculations. Usage: Calculator[expression]",
     run := fun input => Except.ok (calculatorRun input) }]

/-- `toolDescriptions` from the source. -/
def toolDescriptions : String :=
  String.intercalate "\n" (agentTools.map (fun t => t.name ++ ": " ++ t.description))

/-- `systemPrompt` from the source. -/
def systemPrompt : String :=
  "You are a smart assistant with access to the following tools:\n" ++
  toolDescriptions ++
  "\n\nWhen answering the user, you may use the tools to gather information or calculate results.\n" ++
  "Follow this format strictly:\n" ++
  "Thought: <your reasoning here>\n" ++
  "Action: <ToolName>[<tool input>]\n" ++
  "Observation: <result of the tool action>\n" ++
  "... (you can repeat Thought/Action/Observation as needed) ...\n" ++
  "Thought: <final reasoning>\n" ++
  "Answer: <your final answer to the user\x27s query>\n\n" ++
  "Only provide one action at a time, and wait for the observation before continuing. \n" ++
  "If the answer is directly known or once you have gathered enough information, output the final Answer.\n"

/-! ## The workflow nodes -/

/-- `state.messages[state.messages.length - 1]`.  In every reachable state
the transcript is nonempty (it starts with the system prompt and the user
query), so the default is never consulted there. -/
def lastMessage (s : AgentState) : ChatMessage :=
  s.messages.getLastD { role := Role.assistant, content := "" }

/-- Node `parse_input`: one model invocation.  The reply of the external
model service (`callOpenRouter`) is passed in by the loop; the node appends
it as an assistant message. -/
def parse_input (reply : String) (s : AgentState) : AgentState :=
  { s with messages := s.messages ++ [{ role := Role.assistant, content := reply }] }

/-- Tool lookup from node `tool_executor`:
`state.tools.find(t => t.name.toLowerCase() === toolName.trim().toLowerCase())`. -/
def findTool (reg : List Tool) (toolName : String) : Option Tool :=
  reg.find? (fun t => strLower t.name == strLower (jsTrimStr toolName))

/-- The observation text produced by node `tool_executor` for a parsed
action: unknown tool, thrown failure, or the tool result (for a string
result, `String(result)` is the identity). -/
def dispatchObservation (reg : List Tool) (toolName toolInput : String) : String :=
  match findTool reg toolName with
  | none => "Tool \"" ++ toolName ++ "\" not found"
  | some t =>
    match t.run (jsTrimStr toolInput) with
    | Except.ok r => r
    | Except.error m => "Error: " ++ m

/-- Node `tool_executor`: match the action pattern against the last
message; on no match return the state unchanged, otherwise append exactly
one system message `Observation: <text>`. -/
def tool_executor (s : AgentState) : AgentState :=
  match firstActionMatch (lastMessage s).content with
  | none => s
  | some (toolName, toolInput) =>
    { s with
      messages := s.messages ++
        [{ role := Role.system,
           content := "Observation: " ++ dispatchObservation s.tools toolName toolInput }] }

/-- Node `response_generator`: match the answer pattern against the last
message; on a match set `final_answer` to the trimmed capture (leaving the
step counter unchanged), otherwise increment the step counter. -/
def response_generator (s : AgentState) : AgentState :=
  match answerMatch (lastMessage s).content with
  | some t => { s with final_answer := some (jsTrimStr t) }
  | none => { s with current_step := s.current_step + 1 }

/-! ## The loop controller

`workflow.addEdge("parse_input", "tool_executor")`,
`workflow.addEdge("tool_executor", "response_generator")`, and
`workflow.addConditionalEdges("response_generator", ...)`, executed as a
small-step machine (one step = run the current node, move along its edge).
The conditional is the source function
`(state) => { if (state.final_answer) return "end";
if (state.current_step >= 10) return "end"; return "continue"; }`;
note the JavaScript truthiness test: an empty string is falsy. -/

/-- JavaScript truthiness of `state.final_answer` (absent or empty string
are falsy). -/
def truthy : Option String → Bool
  | none => false
  | some a => a != ""

/-- The conditional edge of `response_generator`: `true` routes to END. -/
def routeEnd (s : AgentState) : Bool :=
  truthy s.final_answer || decide (10 ≤ s.current_step)

/-- The workflow graph nodes (plus the END state). -/
inductive Node where
  | parse_input
  | tool_executor
  | response_generator
  | terminal
deriving DecidableEq, Repr

/-- A machine configuration: current node, agent state, and the number of
model invocations performed so far (the index into the reply oracle). -/
structure Config where
  node : Node
  state : AgentState
  ninvoke : Nat

/-- One step of the workflow.  `llm` is the external model service: reply
text per invocation index (the `callOpenRouter` boundary).  The END state
is absorbing: once reached, nothing runs and no model invocation occurs. -/
def stepMachine (llm : Nat → String) (c : Config) : Config :=
  match c.node with
  | Node.parse_input =>
    { node := Node.tool_executor,
      state := parse_input (llm c.ninvoke) c.state,
      ninvoke := c.ninvoke + 1 }
  | Node.tool_executor =>
    { node := Node.response_generator, state := tool_executor c.state, ninvoke := c.ninvoke }
  | Node.response_generator =>
    let s := response_generator c.state
    { node := if routeEnd s then Node.terminal else Node.parse_input,
      state := s, ninvoke := c.ninvoke }
  | Node.terminal => c

/-- The initial agent state of one run: `graph.invoke({ messages:
[system, user], tools, current_step: 0 })`; `final_answer` absent. -/
def initState (query : String) : AgentState :=
  { messages := [{ role := Role.system, content := systemPrompt },
                 { role := Role.user, content := query }],
    tools := agentTools,
    current_step := 0,
    final_answer := none }

/-- The run of one query: iterate the machine from the entry node
`parse_input`. -/
def machTrace (llm : Nat → String) (query : String) (n : Nat) : Config :=
  (stepMachine llm)^[n] { node := Node.parse_input, state := initState query, ninvoke := 0 }

/-- The HTTP response body text:
`result.final_answer ?? "No answer generated within step limit."`. -/
def httpAnswer (c : Config) : String :=
  c.state.final_answer.getD "No answer generated within step limit."

/-! ## Concrete oracles and states used by witnesses and counterexamples -/

/-- A model that answers directly, with no action. -/
def llmA : Nat → String := fun _ => "Thought: simple arithmetic.\nAnswer: 4"

/-- A model that forever requests an unknown tool and never answers
(end-to-end scenario B of the spec). -/
def llmB : Nat → String := fun _ => "Thought: I should check the weather.\nAction: Weather[NYC]"

/-- A model whose reply contains both an action directive and an
`Answer:` line. -/
def llmC : Nat → String := fun _ => "Thought: need weather.\nAction: Weather[NYC]\nAnswer: 42"

/-- A state whose last message requests the unknown tool `Weather`. -/
def sWx : AgentState :=
  { messages := [{ role := Role.assistant, content := "Thought: check.\nAction: Weather[NYC]" }],
    tools := agentTools, current_step := 0, final_answer := none }

/-- A state whose last message contains no action pattern. -/
def s9 : AgentState :=
  { messages := [{ role := Role.assistant, content := "Thought: nothing to do." }],
    tools := agentTools, current_step := 0, final_answer := none }

/-- A state whose last message is `Action: [2+2]` (whitespace where the
tool name would be). -/
def s10 : AgentState :=
  { messages := [{ role := Role.assistant, content := "Action: [2+2]" }],
    tools := agentTools, current_step := 0, final_answer := none }

/-- A state whose last message is an action directive with an empty
bracketed argument. -/
def s10b : AgentState :=
  { messages := [{ role := Role.assistant, content := "Thought: try.\nAction: Calculator[]" }],
    tools := agentTools, current_step := 0, final_answer := none }

/-- The initial configuration of the run used by the C1 witness. -/
def cA : Config :=
  { node := Node.parse_input, state := initState "What is 2+2?", ninvoke := 0 }

/-! ## Helper lemmas -/

theorem data_append (a b : String) : (a ++ b).data = a.data ++ b.data := rfl

theorem mk_data (s : String) : String.mk s.data = s := rfl

theorem getLastD_append_one {α : Type} (l : List α) (a d : α) :
    (l ++ [a]).getLastD d = a := by
  induction l generalizing d with
  | nil => rfl
  | cons x xs ih => rw [List.cons_append, List.getLastD_cons, ih]

theorem lastMessage_parse_input (r : String) (s : AgentState) :
    lastMessage (parse_input r s) = { role := Role.assistant, content := r } := by
  unfold lastMessage parse_input
  exact getLastD_append_one s.messages _ _

theorem tool_executor_of_none (s : AgentState)
    (h : firstActionMatch (lastMessage s).content = none) :
    tool_executor s = s := by
  unfold tool_executor
  rw [h]

theorem tool_executor_of_some (s : AgentState) (nm arg : String)
    (h : firstActionMatch (lastMessage s).content = some (nm, arg)) :
    tool_executor s =
      { s with messages := s.messages ++
          [{ role := Role.system,
             content := "Observation: " ++ dispatchObservation s.tools nm arg }] } := by
  unfold tool_executor
  rw [h]

theorem tool_executor_step (s : AgentState) :
    (tool_executor s).current_step = s.current_step := by
  cases hm : firstActionMatch (lastMessage s).content with
  | none => rw [tool_executor_of_none s hm]
  | some p =>
    obtain ⟨nm, arg⟩ := p
    rw [tool_executor_of_some s nm arg hm]

theorem tool_executor_final (s : AgentState) :
    (tool_executor s).final_answer = s.final_answer := by
  cases hm : firstActionMatch (lastMessage s).content with
  | none => rw [tool_executor_of_none s hm]
  | some p =>
    obtain ⟨nm, arg⟩ := p
    rw [tool_executor_of_some s nm arg hm]

theorem tool_executor_messages (s : AgentState) :
    (tool_executor s).messages = s.messages ∨
    ∃ obs, (tool_executor s).messages =
      s.messages ++ [{ role := Role.system, content := "Observation: " ++ obs }] := by
  cases hm : firstActionMatch (lastMessage s).content with
  | none =>
    rw [tool_executor_of_none s hm]
    exact Or.inl rfl
  | some p =>
    obtain ⟨nm, arg⟩ := p
    rw [tool_executor_of_some s nm arg hm]
    exact Or.inr ⟨dispatchObservation s.tools nm arg, rfl⟩

theorem respGen_of_some (s : AgentState) (t : String)
    (h : answerMatch (lastMessage s).content = some t) :
    response_generator s = { s with final_answer := some (jsTrimStr t) } := by
  unfold response_generator
  rw [h]

theorem respGen_of_none (s : AgentState)
    (h : answerMatch (lastMessage s).content = none) :
    response_generator s = { s with current_step := s.current_step + 1 } := by
  unfold response_generator
  rw [h]

theorem respGen_cases (s : AgentState) :
    (∃ t, answerMatch (lastMessage s).content = some t ∧
      response_generator s = { s with final_answer := some (jsTrimStr t) }) ∨
    (answerMatch (lastMessage s).content = none ∧
      response_generator s = { s with current_step := s.current_step + 1 }) := by
  cases hm : answerMatch (lastMessage s).content with
  | some t => exact Or.inl ⟨t, rfl, respGen_of_some s t hm⟩
  | none => exact Or.inr ⟨rfl, respGen_of_none s hm⟩

theorem respGen_messages (s : AgentState) :
    (response_generator s).messages = s.messages := by
  rcases respGen_cases s with ⟨t, _, heq⟩ | ⟨_, heq⟩ <;> rw [heq]

theorem splitAtFirst_append (t : Char) (l r : List Char) (h : ∀ c ∈ l, c ≠ t) :
    splitAtFirst t (l ++ t :: r) = some (l, r) := by
  induction l with
  | nil => simp [splitAtFirst]
  | cons c cs ih =>
    have hc : c ≠ t := h c (by simp)
    have ih2 := ih (fun x hx => h x (by simp [hx]))
    simp [splitAtFirst, hc, ih2]

theorem tryActionAt_eval (nmL argL restL : List Char)
    (h1 : nmL ≠ []) (h2 : ∀ c ∈ nmL, c ≠ '[')
    (h3 : isJsSpace (nmL.headD 'x') = false)
    (h4 : argL ≠ []) (h5 : ∀ c ∈ argL, c ≠ ']') :
    tryActionAt (' ' :: (nmL ++ '[' :: (argL ++ ']' :: restL)))
      = some (String.mk nmL, String.mk argL) := by
  obtain ⟨a, as, rfl⟩ : ∃ a as, nmL = a :: as := by
    cases nmL with
    | nil => exact absurd rfl h1
    | cons a as => exact ⟨a, as, rfl⟩
  have ha : isJsSpace a = false := h3
  have hsplit1 : splitAtFirst '[' ((' ' :: a :: as) ++ '[' :: (argL ++ ']' :: restL))
      = some (' ' :: a :: as, argL ++ ']' :: restL) := by
    apply splitAtFirst_append
    intro c hc
    rcases List.mem_cons.mp hc with rfl | hc2
    · decide
    · exact h2 c hc2
  have hsplit2 : splitAtFirst ']' (argL ++ ']' :: restL) = some (argL, restL) :=
    splitAtFirst_append ']' argL restL h5
  have hdw : (' ' :: a :: as).dropWhile isJsSpace = a :: as := by
    rw [List.dropWhile_cons]
    simp only [show isJsSpace ' ' = true from rfl, if_true]
    rw [List.dropWhile_cons, ha]
    simp
  unfold tryActionAt
  rw [show (' ' :: (a :: as ++ '[' :: (argL ++ ']' :: restL)))
        = ((' ' :: a :: as) ++ '[' :: (argL ++ ']' :: restL)) from rfl]
  rw [hsplit1]
  simp [hdw, hsplit2, h4]

theorem findActionFrom_at_start (nmL argL restL : List Char)
    (h1 : nmL ≠ []) (h2 : ∀ c ∈ nmL, c ≠ '[')
    (h3 : isJsSpace (nmL.headD 'x') = false)
    (h4 : argL ≠ []) (h5 : ∀ c ∈ argL, c ≠ ']') :
    findActionFrom ('A' :: 'c' :: 't' :: 'i' :: 'o' :: 'n' :: ':' :: ' ' ::
        (nmL ++ '[' :: (argL ++ ']' :: restL)))
      = some (String.mk nmL, String.mk argL) := by
  have he := tryActionAt_eval nmL argL restL h1 h2 h3 h4 h5
  show (match tryActionAt (' ' :: (nmL ++ '[' :: (argL ++ ']' :: restL))) with
        | some r => some r
        | none => findActionFrom ('c' :: 't' :: 'i' :: 'o' :: 'n' :: ':' :: ' ' ::
            (nmL ++ '[' :: (argL ++ ']' :: restL)))) = some (String.mk nmL, String.mk argL)
  rw [he]

/-! ## Claim C2 (corrected): division by zero in the Calculator -/

/-- C2 counterexample: on the validated input `10/0` the Calculator does
not return an `Error: `-prefixed text — JavaScript division by zero yields
`Infinity`, which is rendered plainly. -/
theorem c2_counterexample :
    calculatorRun "10/0" = "Infinity" ∧
    strHasPrefix "Error: " (calculatorRun "10/0") = false := by
  decide

/-- C2 (amended): division by zero is not an arithmetic error in the
evaluator: a finite value with positive numerator divided by zero is
`Infinity`, so input `10/0` yields the plain text `Infinity`; the
`Error: <message>` form arises only for inputs whose evaluation throws
(for example the malformed `10/`). -/
theorem c2_div_by_zero (f : Frac) (h : 0 < f.n) :
    JSNum.div (JSNum.num f) (JSNum.num (Frac.ofInt 0)) = JSNum.inf ∧
    calculatorRun "10/0" = "Infinity" ∧
    strHasPrefix "Error: " (calculatorRun "10/") = true := by
  refine ⟨?_, by decide, by decide⟩
  unfold JSNum.div
  simp [Frac.ofInt, h, h.ne']

/-- C2 witness: the amended statement at the concrete fraction `10/1`. -/
theorem c2_div_by_zero_witness :
    0 < (Frac.ofInt 10).n ∧
    JSNum.div (JSNum.num (Frac.ofInt 10)) (JSNum.num (Frac.ofInt 0)) = JSNum.inf ∧
    calculatorRun "10/0" = "Infinity" :=
  have h : 0 < (Frac.ofInt 10).n := by decide
  ⟨h, (c2_div_by_zero (Frac.ofInt 10) h).1, (c2_div_by_zero (Frac.ofInt 10) h).2.1⟩

/-! ## Claim C3 (confirmed): tool dispatch of a parsed action -/

/-- C3: for every parsed action, tool dispatch appends exactly one
system-role message `Observation: <text>` (and changes nothing else, so the
run is never aborted and the loop continues): the text is
`Tool "<name>" not found` when the case-insensitive lookup of the trimmed
name fails, `Error: <message>` when the tool throws, and the tool result
itself when it succeeds. -/
theorem c3_dispatch (s : AgentState) (toolName toolInput : String)
    (h : firstActionMatch (lastMessage s).content = some (toolName, toolInput)) :
    (tool_executor s).messages =
      s.messages ++ [{ role := Role.system,
                       content := "Observation: " ++ dispatchObservation s.tools toolName toolInput }] ∧
    (tool_executor s).current_step = s.current_step ∧
    (tool_executor s).final_answer = s.final_answer ∧
    (findTool s.tools toolName = none →
      dispatchObservation s.tools toolName toolInput =
        "Tool \"" ++ toolName ++ "\" not found") ∧
    (∀ t, findTool s.tools toolName = some t →
      (∀ r, t.run (jsTrimStr toolInput) = Except.ok r →
        dispatchObservation s.tools toolName toolInput = r) ∧
      (∀ m, t.run (jsTrimStr toolInput) = Except.error m →
        dispatchObservation s.tools toolName toolInput = "Error: " ++ m)) := by
  refine ⟨?_, ?_, ?_, ?_, ?_⟩
  · rw [tool_executor_of_some s toolName toolInput h]
  · rw [tool_executor_of_some s toolName toolInput h]
  · rw [tool_executor_of_some s toolName toolInput h]
  · intro hn
    unfold dispatchObservation
    rw [hn]
  · intro t ht
    constructor
    · intro r hr
      unfold dispatchObservation
      rw [ht]
      simp [hr]
    · intro m hm
      unfold dispatchObservation
      rw [ht]
      simp [hm]

/-- C3 witness: dispatching the unknown tool `Weather[NYC]` appends exactly
the not-found observation. -/
theorem c3_dispatch_witness :
    firstActionMatch (lastMessage sWx).content = some ("Weather", "NYC") ∧
    (tool_executor sWx).messages =
      sWx.messages ++ [{ role := Role.system,
                         content := "Observation: " ++ dispatchObservation sWx.tools "Weather" "NYC" }] ∧
    (tool_executor sWx).current_step = sWx.current_step ∧
    dispatchObservation sWx.tools "Weather" "NYC" = "Tool \"Weather\" not found" :=
  have h : firstActionMatch (lastMessage sWx).content = some ("Weather", "NYC") := by decide
  have hn : findTool sWx.tools "Weather" = none := rfl
  ⟨h, (c3_dispatch sWx "Weather" "NYC" h).1, (c3_dispatch sWx "Weather" "NYC" h).2.1,
    (c3_dispatch sWx "Weather" "NYC" h).2.2.2.1 hn⟩

/-! ## Claim C4 (confirmed): the Calculator whitelist -/

/-- C4: any input containing a character outside
digits, `.`, `+`, `-`, `*`, `/`, `(`, `)` and whitespace is rejected with
exactly the text `Invalid expression`, for every evaluator — so no
evaluation of the input is ever attempted. -/
theorem c4_whitelist_rejection (ev : String → Except String JSNum) (input : String)
    (h : ∃ c ∈ input.data, calcCharOk c = false) :
    calculatorRunWith ev input = "Invalid expression" := by
  have hall : input.data.all calcCharOk = false := by
    rcases h with ⟨c, hc, hbad⟩
    exact List.all_eq_false.mpr ⟨c, hc, by simp [hbad]⟩
  have hv : calcValid input = false := by
    unfold calcValid
    rw [hall]
    simp
  simp [calculatorRunWith, hv]

/-- C4 witness: the spec example `2+2; import os`, with the real
evaluator. -/
theorem c4_whitelist_rejection_witness :
    (∃ c ∈ "2+2; import os".data, calcCharOk c = false) ∧
    calculatorRunWith jsEvalString "2+2; import os" = "Invalid expression" ∧
    calculatorRun "2+2; import os" = "Invalid expression" :=
  have h : ∃ c ∈ "2+2; import os".data, calcCharOk c = false := by decide
  ⟨h, c4_whitelist_rejection jsEvalString "2+2; import os" h,
    c4_whitelist_rejection jsEvalString "2+2; import os" h⟩

/-! ## Claim C9 (confirmed): only the first action pattern is honored -/

/-- C9: the action parser honors only the first (leftmost) occurrence of
the pattern: a message that starts with a well-formed `Action: nm[arg]`
dispatches `(nm, arg)` whatever follows — in particular any later `Action:`
occurrences in `rest` are ignored; and when no occurrence of the pattern
matches, tool dispatch is a no-op: the state is returned unchanged (no
observation, no error). -/
theorem c9_first_match_only (s : AgentState) (nm arg rest : String)
    (h1 : nm.data ≠ []) (h2 : ∀ c ∈ nm.data, c ≠ '[')
    (h3 : isJsSpace (nm.data.headD 'x') = false)
    (h4 : arg.data ≠ []) (h5 : ∀ c ∈ arg.data, c ≠ ']')
    (hno : firstActionMatch (lastMessage s).content = none) :
    firstActionMatch ("Action: " ++ nm ++ "[" ++ arg ++ "]" ++ rest) = some (nm, arg) ∧
    tool_executor s = s := by
  constructor
  · have e1 : "Action: ".data = ['A', 'c', 't', 'i', 'o', 'n', ':', ' '] := rfl
    have e2 : "[".data = ['['] := rfl
    have e3 : "]".data = [']'] := rfl
    have hdata : ("Action: " ++ nm ++ "[" ++ arg ++ "]" ++ rest).data
        = 'A' :: 'c' :: 't' :: 'i' :: 'o' :: 'n' :: ':' :: ' ' ::
            (nm.data ++ '[' :: (arg.data ++ ']' :: rest.data)) := by
      simp [data_append, e1, e2, e3]
    unfold firstActionMatch
    rw [hdata, findActionFrom_at_start nm.data arg.data rest.data h1 h2 h3 h4 h5,
      mk_data, mk_data]
  · exact tool_executor_of_none s hno

/-- C9 witness: `Action: Weather[NYC]` followed by a second action
directive dispatches only `(Weather, NYC)`; a message with no action
pattern leaves the state unchanged. -/
theorem c9_first_match_only_witness :
    firstActionMatch
        ("Action: " ++ "Weather" ++ "[" ++ "NYC" ++ "]" ++
          "\nLater Action: Calculator[1+1] is ignored.") = some ("Weather", "NYC") ∧
    tool_executor s9 = s9 :=
  c9_first_match_only s9 "Weather" "NYC" "\nLater Action: Calculator[1+1] is ignored."
    (by decide) (by decide) (by decide) (by decide) (by decide) (by decide)

/-! ## Claim C10 (corrected): empty name / empty argument directives -/

/-- C10 counterexample: `Action: [2+2]` (empty tool name before the
bracket) IS recognized as an action — backtracking lets the whitespace
after `Action:` serve as group 1 — so tool dispatch appends the observation
`Tool " " not found` instead of being a no-op. -/
theorem c10_counterexample :
    firstActionMatch "Action: [2+2]" = some (" ", "2+2") ∧
    (tool_executor s10).messages =
      s10.messages ++
        [{ role := Role.system, content := "Observation: Tool \" \" not found" }] := by
  decide

/-- C10 (amended): an `Action:` directive with an empty bracketed argument
(`Action: Calculator[]`) is not recognized (the argument group needs at
least one character), and `Action:[2+2]` with nothing at all between
`Action:` and `[` is not recognized (the name group needs at least one
character); in those cases — and whenever no action pattern matches — tool
dispatch returns the state unchanged.  But a directive whose name consists
only of whitespace, such as `Action: [2+2]`, IS recognized, with a
whitespace character as the tool name. -/
theorem c10_empty_action_parts (s : AgentState)
    (h : firstActionMatch (lastMessage s).content = none) :
    tool_executor s = s ∧
    firstActionMatch "Action: Calculator[]" = none ∧
    firstActionMatch "Action:[2+2]" = none ∧
    firstActionMatch "Action: [2+2]" = some (" ", "2+2") :=
  ⟨tool_executor_of_none s h, by decide, by decide, by decide⟩

/-- C10 witness: the amended statement on a state whose last message is
exactly an empty-argument directive. -/
theorem c10_empty_action_parts_witness :
    firstActionMatch (lastMessage s10b).content = none ∧
    tool_executor s10b = s10b ∧
    firstActionMatch "Action: Calculator[]" = none :=
  have h : firstActionMatch (lastMessage s10b).content = none := by decide
  ⟨h, (c10_empty_action_parts s10b h).1, (c10_empty_action_parts s10b h).2.1⟩

/-! ## Loop controller helper lemmas -/

theorem machTrace_succ (llm : Nat → String) (q : String) (n : Nat) :
    machTrace llm q (n + 1) = stepMachine llm (machTrace llm q n) :=
  Function.iterate_succ_apply' (stepMachine llm) n _

theorem stepMachine_at_parse (llm : Nat → String) (c : Config)
    (h : c.node = Node.parse_input) :
    stepMachine llm c =
      { node := Node.tool_executor,
        state := parse_input (llm c.ninvoke) c.state,
        ninvoke := c.ninvoke + 1 } := by
  unfold stepMachine
  rw [h]

theorem stepMachine_at_tool (llm : Nat → String) (c : Config)
    (h : c.node = Node.tool_executor) :
    stepMachine llm c =
      { node := Node.response_generator, state := tool_executor c.state,
        ninvoke := c.ninvoke } := by
  unfold stepMachine
  rw [h]

theorem stepMachine_at_response (llm : Nat → String) (c : Config)
    (h : c.node = Node.response_generator) :
    stepMachine llm c =
      { node := if routeEnd (response_generator c.state) then Node.terminal
                else Node.parse_input,
        state := response_generator c.state, ninvoke := c.ninvoke } := by
  unfold stepMachine
  rw [h]

theorem stepMachine_at_terminal (llm : Nat → String) (c : Config)
    (h : c.node = Node.terminal) :
    stepMachine llm c = c := by
  unfold stepMachine
  rw [h]

theorem stepMachine_iterate_terminal (llm : Nat → String) (c : Config)
    (h : c.node = Node.terminal) :
    ∀ m, (stepMachine llm)^[m] c = c := by
  intro m
  induction m with
  | zero => rfl
  | succ k ih =>
    rw [Function.iterate_succ_apply', ih]
    exact stepMachine_at_terminal llm c h

theorem parse_input_step (r : String) (s : AgentState) :
    (parse_input r s).current_step = s.current_step := rfl

theorem parse_input_final (r : String) (s : AgentState) :
    (parse_input r s).final_answer = s.final_answer := rfl

theorem parse_input_messages (r : String) (s : AgentState) :
    (parse_input r s).messages =
      s.messages ++ [{ role := Role.assistant, content := r }] := rfl

/-- Step-counter invariant: at most 10 everywhere, at most 9 at any
non-END node. -/
def ConfigInv (c : Config) : Prop :=
  c.state.current_step ≤ 10 ∧ (c.node ≠ Node.terminal → c.state.current_step ≤ 9)

theorem configInv_step (llm : Nat → String) (c : Config) (h : ConfigInv c) :
    ConfigInv (stepMachine llm c) := by
  obtain ⟨h10, h9⟩ := h
  cases hn : c.node with
  | parse_input =>
    have hs : c.state.current_step ≤ 9 := h9 (by rw [hn]; simp)
    rw [stepMachine_at_parse llm c hn]
    constructor
    · show (parse_input (llm c.ninvoke) c.state).current_step ≤ 10
      rw [parse_input_step]
      omega
    · intro _
      show (parse_input (llm c.ninvoke) c.state).current_step ≤ 9
      rw [parse_input_step]
      exact hs
  | tool_executor =>
    have hs : c.state.current_step ≤ 9 := h9 (by rw [hn]; simp)
    rw [stepMachine_at_tool llm c hn]
    constructor
    · show (tool_executor c.state).current_step ≤ 10
      rw [tool_executor_step]
      omega
    · intro _
      show (tool_executor c.state).current_step ≤ 9
      rw [tool_executor_step]
      exact hs
  | response_generator =>
    have hs : c.state.current_step ≤ 9 := h9 (by rw [hn]; simp)
    rw [stepMachine_at_response llm c hn]
    rcases respGen_cases c.state with ⟨t, _, heq⟩ | ⟨_, heq⟩
    · constructor
      · show (response_generator c.state).current_step ≤ 10
        rw [heq]
        show c.state.current_step ≤ 10
        omega
      · intro _
        show (response_generator c.state).current_step ≤ 9
        rw [heq]
        exact hs
    · constructor
      · show (response_generator c.state).current_step ≤ 10
        rw [heq]
        show c.state.current_step + 1 ≤ 10
        omega
      · intro hnt
        show (response_generator c.state).current_step ≤ 9
        by_cases hr : routeEnd (response_generator c.state)
        · exfalso
          apply hnt
          show (if routeEnd (response_generator c.state) then Node.terminal
                else Node.parse_input) = Node.terminal
          rw [if_pos hr]
        · have hlt : ¬ (10 ≤ (response_generator c.state).current_step) := by
            intro hge
            apply hr
            unfold routeEnd
            simp [hge]
          omega
  | terminal =>
    rw [stepMachine_at_terminal llm c hn]
    exact ⟨h10, fun hx => absurd hn hx⟩

theorem configInv_trace (llm : Nat → String) (q : String) :
    ∀ n, ConfigInv (machTrace llm q n) := by
  intro n
  induction n with
  | zero =>
    exact ⟨by show (0 : Nat) ≤ 10; omega, fun _ => by show (0 : Nat) ≤ 9; omega⟩
  | succ k ih =>
    rw [machTrace_succ]
    exact configInv_step llm _ ih

theorem stepMachine_mono_step (llm : Nat → String) (c : Config) :
    c.state.current_step ≤ (stepMachine llm c).state.current_step := by
  cases hn : c.node with
  | parse_input =>
    rw [stepMachine_at_parse llm c hn]
    show _ ≤ (parse_input (llm c.ninvoke) c.state).current_step
    rw [parse_input_step]
  | tool_executor =>
    rw [stepMachine_at_tool llm c hn]
    show _ ≤ (tool_executor c.state).current_step
    rw [tool_executor_step]
  | response_generator =>
    rw [stepMachine_at_response llm c hn]
    show _ ≤ (response_generator c.state).current_step
    rcases respGen_cases c.state with ⟨t, _, heq⟩ | ⟨_, heq⟩
    · rw [heq]
    · rw [heq]
      show c.state.current_step ≤ c.state.current_step + 1
      omega
  | terminal =>
    rw [stepMachine_at_terminal llm c hn]

/-! ## Claim C7 (confirmed): the step counter -/

/-- C7: in every run the step counter starts at 0, never decreases from one
machine step to the next, and is bounded by the hard-coded maximum 10 at
every reachable configuration (the lower bound 0 is inherent in the `Nat`
type of `current_step`). -/
theorem c7_step_counter (llm : Nat → String) (q : String) :
    (machTrace llm q 0).state.current_step = 0 ∧
    (∀ n, (machTrace llm q n).state.current_step ≤
      (machTrace llm q (n + 1)).state.current_step) ∧
    (∀ n, (machTrace llm q n).state.current_step ≤ 10) := by
  refine ⟨rfl, fun n => ?_, fun n => (configInv_trace llm q n).1⟩
  rw [machTrace_succ]
  exact stepMachine_mono_step llm _

/-! ## Claim C6 (confirmed): fixed order of steps within a cycle -/

/-- C6: the workflow edges force the fixed order
model invocation → tool dispatch → answer check: from `parse_input` the
machine always moves to `tool_executor` (tool dispatch is always attempted,
as a no-op when no action was parsed), from `tool_executor` always to
`response_generator`, and `response_generator` is only ever entered from
`tool_executor` — the answer check never precedes tool dispatch in a
cycle. -/
theorem c6_cycle_order (llm : Nat → String) (q : String) (n : Nat) :
    ((machTrace llm q n).node = Node.parse_input →
      (machTrace llm q (n + 1)).node = Node.tool_executor) ∧
    ((machTrace llm q n).node = Node.tool_executor →
      (machTrace llm q (n + 1)).node = Node.response_generator) ∧
    ((machTrace llm q (n + 1)).node = Node.response_generator →
      (machTrace llm q n).node = Node.tool_executor) := by
  refine ⟨?_, ?_, ?_⟩
  · intro h
    rw [machTrace_succ, stepMachine_at_parse llm _ h]
  · intro h
    rw [machTrace_succ, stepMachine_at_tool llm _ h]
  · intro h
    rw [machTrace_succ] at h
    cases hn : (machTrace llm q n).node with
    | parse_input =>
      rw [stepMachine_at_parse llm _ hn] at h
      simp at h
    | tool_executor => rfl
    | response_generator =>
      rw [stepMachine_at_response llm _ hn] at h
      by_cases hr : routeEnd (response_generator (machTrace llm q n).state) <;>
        simp [hr] at h
    | terminal =>
      rw [stepMachine_at_terminal llm _ hn, hn] at h
      simp at h

/-- C6 witness: the first cycle of a concrete run visits the three nodes in
order. -/
theorem c6_cycle_order_witness :
    (machTrace llmB "What is the weather?" 0).node = Node.parse_input ∧
    (machTrace llmB "What is the weather?" 1).node = Node.tool_executor ∧
    (machTrace llmB "What is the weather?" 2).node = Node.response_generator :=
  have h0 : (machTrace llmB "What is the weather?" 0).node = Node.parse_input := rfl
  have h1 : (machTrace llmB "What is the weather?" 1).node = Node.tool_executor :=
    (c6_cycle_order llmB "What is the weather?" 0).1 h0
  ⟨h0, h1, (c6_cycle_order llmB "What is the weather?" 1).2.1 h1⟩

/-! ## Claim C8 (confirmed): the transcript is append-only -/

/-- C8: every machine step only appends to the transcript (each previously
present entry is preserved unchanged in its position), and every completed
cycle appends exactly one assistant message (the model reply) plus zero or
one system observation message. -/
theorem c8_transcript (llm : Nat → String) (q : String) :
    (∀ n, ∃ t : List ChatMessage,
      (machTrace llm q (n + 1)).state.messages =
        (machTrace llm q n).state.messages ++ t) ∧
    (∀ k, (machTrace llm q (3 * k)).node = Node.parse_input →
      (machTrace llm q (3 * k + 3)).state.messages =
          (machTrace llm q (3 * k)).state.messages ++
            [{ role := Role.assistant,
               content := llm ((machTrace llm q (3 * k)).ninvoke) }] ∨
      ∃ obs : String,
        (machTrace llm q (3 * k + 3)).state.messages =
          (machTrace llm q (3 * k)).state.messages ++
            [{ role := Role.assistant,
               content := llm ((machTrace llm q (3 * k)).ninvoke) },
             { role := Role.system, content := "Observation: " ++ obs }]) := by
  constructor
  · intro n
    rw [machTrace_succ]
    cases hn : (machTrace llm q n).node with
    | parse_input =>
      rw [stepMachine_at_parse llm _ hn]
      exact ⟨[{ role := Role.assistant, content := llm (machTrace llm q n).ninvoke }], rfl⟩
    | tool_executor =>
      rw [stepMachine_at_tool llm _ hn]
      rcases tool_executor_messages (machTrace llm q n).state with hm | ⟨obs, hm⟩
      · exact ⟨[], by simp [hm]⟩
      · exact ⟨[{ role := Role.system, content := "Observation: " ++ obs }], hm⟩
    | response_generator =>
      rw [stepMachine_at_response llm _ hn]
      exact ⟨[], by simp [respGen_messages]⟩
    | terminal =>
      rw [stepMachine_at_terminal llm _ hn]
      exact ⟨[], by simp⟩
  · intro k hk
    set s0 := (machTrace llm q (3 * k)).state with hs0
    set i0 := (machTrace llm q (3 * k)).ninvoke with hi0
    have e1 : machTrace llm q (3 * k + 1) =
        { node := Node.tool_executor, state := parse_input (llm i0) s0,
          ninvoke := i0 + 1 } := by
      rw [machTrace_succ, stepMachine_at_parse llm _ hk]
    have e2 : machTrace llm q (3 * k + 2) =
        { node := Node.response_generator,
          state := tool_executor (parse_input (llm i0) s0), ninvoke := i0 + 1 } := by
      rw [machTrace_succ, e1, stepMachine_at_tool llm _ rfl]
    have e3 : machTrace llm q (3 * k + 3) =
        { node := if routeEnd (response_generator (tool_executor (parse_input (llm i0) s0)))
                  then Node.terminal else Node.parse_input,
          state := response_generator (tool_executor (parse_input (llm i0) s0)),
          ninvoke := i0 + 1 } := by
      rw [show 3 * k + 3 = (3 * k + 2) + 1 from rfl, machTrace_succ, e2,
        stepMachine_at_response llm _ rfl]
    rw [e3]
    have hmsg : (response_generator (tool_executor (parse_input (llm i0) s0))).messages
        = (tool_executor (parse_input (llm i0) s0)).messages := respGen_messages _
    rcases tool_executor_messages (parse_input (llm i0) s0) with hm | ⟨obs, hm⟩
    · left
      show (response_generator (tool_executor (parse_input (llm i0) s0))).messages = _
      rw [hmsg, hm, parse_input_messages]
    · right
      refine ⟨obs, ?_⟩
      show (response_generator (tool_executor (parse_input (llm i0) s0))).messages = _
      rw [hmsg, hm, parse_input_messages, List.append_assoc]
      rfl

/-- C8 witness: the first cycle of a concrete run grows the transcript by
an assistant message plus an observation. -/
theorem c8_transcript_witness :
    (machTrace llmB "wq" 0).node = Node.parse_input ∧
    ((machTrace llmB "wq" 3).state.messages =
        (machTrace llmB "wq" 0).state.messages ++
          [{ role := Role.assistant,
             content := llmB ((machTrace llmB "wq" 0).ninvoke) }] ∨
      ∃ obs : String,
        (machTrace llmB "wq" 3).state.messages =
          (machTrace llmB "wq" 0).state.messages ++
            [{ role := Role.assistant,
               content := llmB ((machTrace llmB "wq" 0).ninvoke) },
             { role := Role.system, content := "Observation: " ++ obs }]) :=
  have h : (machTrace llmB "wq" 0).node = Node.parse_input := rfl
  ⟨h, (c8_transcript llmB "wq").2 0 h⟩

/-! ## Claim C1 (corrected): when an `Answer:` match ends the run -/

/-- C1 counterexample: an assistant message whose content matches
`Answer: 42` (the answer pattern itself succeeds on it, first conjunct) but
which also contains an `Action: Weather[NYC]` directive does NOT terminate
the run: the dispatched observation becomes the last message, the answer
check inspects the observation instead, `final_answer` stays unset, the
loop routes back to `parse_input`, and a second model invocation occurs. -/
theorem c1_counterexample :
    answerMatch "Thought: need weather.\nAction: Weather[NYC]\nAnswer: 42" = some "42" ∧
    llmC 0 = "Thought: need weather.\nAction: Weather[NYC]\nAnswer: 42" ∧
    (machTrace llmC "What is the weather?" 3).state.final_answer = none ∧
    (machTrace llmC "What is the weather?" 3).node = Node.parse_input ∧
    (machTrace llmC "What is the weather?" 4).ninvoke = 2 := by
  decide

/-- C1 (amended): if a model reply parses no action (so the assistant
message is still the last transcript entry at the answer check), the answer
pattern matches it with capture `t`, and the trimmed capture is nonempty
(the conditional edge tests JavaScript truthiness, under which an empty
string would not end the run), then the cycle started at `parse_input` ends
the run: three steps later the machine is at END with `final_answer` equal
to the trimmed capture, regardless of the remaining step budget, exactly
one further model invocation (the one producing this reply) has occurred,
and the machine never moves again — no further model invocations. -/
theorem c1_answer_terminates (llm : Nat → String) (c : Config) (t : String)
    (hn : c.node = Node.parse_input)
    (hact : firstActionMatch (llm c.ninvoke) = none)
    (hans : answerMatch (llm c.ninvoke) = some t)
    (hne : jsTrimStr t ≠ "") :
    ((stepMachine llm)^[3] c).node = Node.terminal ∧
    ((stepMachine llm)^[3] c).state.final_answer = some (jsTrimStr t) ∧
    ((stepMachine llm)^[3] c).ninvoke = c.ninvoke + 1 ∧
    ∀ m, (stepMachine llm)^[3 + m] c = (stepMachine llm)^[3] c := by
  have hlast : lastMessage (parse_input (llm c.ninvoke) c.state)
      = { role := Role.assistant, content := llm c.ninvoke } :=
    lastMessage_parse_input _ _
  have e2 : tool_executor (parse_input (llm c.ninvoke) c.state)
      = parse_input (llm c.ninvoke) c.state :=
    tool_executor_of_none _ (by rw [hlast]; exact hact)
  have e3 : response_generator (parse_input (llm c.ninvoke) c.state)
      = { parse_input (llm c.ninvoke) c.state with final_answer := some (jsTrimStr t) } :=
    respGen_of_some _ t (by rw [hlast]; exact hans)
  have htr : truthy (some (jsTrimStr t)) = true := by
    unfold truthy
    exact bne_iff_ne.mpr hne
  have hroute : routeEnd
      { parse_input (llm c.ninvoke) c.state with final_answer := some (jsTrimStr t) }
      = true := by
    unfold routeEnd
    rw [show ({ parse_input (llm c.ninvoke) c.state with
                final_answer := some (jsTrimStr t) } : AgentState).final_answer
          = some (jsTrimStr t) from rfl, htr]
    rfl
  have s1 : stepMachine llm c =
      { node := Node.tool_executor, state := parse_input (llm c.ninvoke) c.state,
        ninvoke := c.ninvoke + 1 } := stepMachine_at_parse llm c hn
  have s2 : stepMachine llm (stepMachine llm c) =
      { node := Node.response_generator, state := parse_input (llm c.ninvoke) c.state,
        ninvoke := c.ninvoke + 1 } := by
    rw [s1, stepMachine_at_tool llm _ rfl, e2]
  have hit : (stepMachine llm)^[3] c =
      { node := Node.terminal,
        state := { parse_input (llm c.ninvoke) c.state with
                   final_answer := some (jsTrimStr t) },
        ninvoke := c.ninvoke + 1 } := by
    show stepMachine llm (stepMachine llm (stepMachine llm c)) = _
    rw [s2, stepMachine_at_response llm _ rfl, e3, hroute]
    simp
  refine ⟨by rw [hit], by rw [hit], by rw [hit], ?_⟩
  intro m
  rw [Nat.add_comm, Function.iterate_add_apply, hit]
  exact stepMachine_iterate_terminal llm _ rfl m

/-- C1 witness: a reply with no action and a final `Answer: 4` line ends
the run with answer `4` after one invocation. -/
theorem c1_answer_terminates_witness :
    firstActionMatch (llmA 0) = none ∧
    answerMatch (llmA 0) = some "4" ∧
    jsTrimStr "4" ≠ "" ∧
    ((stepMachine llmA)^[3] cA).node = Node.terminal ∧
    ((stepMachine llmA)^[3] cA).state.final_answer = some (jsTrimStr "4") ∧
    ((stepMachine llmA)^[3] cA).ninvoke = 1 :=
  have h1 : firstActionMatch (llmA 0) = none := by decide
  have h2 : answerMatch (llmA 0) = some "4" := by decide
  have h3 : jsTrimStr "4" ≠ "" := by decide
  have hc := c1_answer_terminates llmA cA "4" rfl h1 h2 h3
  ⟨h1, h2, h3, hc.1, hc.2.1, hc.2.2.1⟩

/-! ## Claim C5 (confirmed): step-limit exhaustion -/

theorem c5_aux (llm : Nat → String) (q : String)
    (h : ∀ i, i ≤ 10 → (machTrace llm q (3 * i)).state.final_answer = none) :
    ∀ i, i ≤ 10 →
      (machTrace llm q (3 * i)).node =
        (if i = 10 then Node.terminal else Node.parse_input) ∧
      (machTrace llm q (3 * i)).state.current_step = i := by
  intro i
  induction i with
  | zero =>
    intro _
    exact ⟨rfl, rfl⟩
  | succ j ihj =>
    intro hle
    have hj10 : j ≤ 10 := by omega
    have hjne : j ≠ 10 := by omega
    obtain ⟨hnode, hstep⟩ := ihj hj10
    rw [if_neg hjne] at hnode
    set s0 := (machTrace llm q (3 * j)).state with hs0
    set i0 := (machTrace llm q (3 * j)).ninvoke with hi0
    have e1 : machTrace llm q (3 * j + 1) =
        { node := Node.tool_executor, state := parse_input (llm i0) s0,
          ninvoke := i0 + 1 } := by
      rw [machTrace_succ, stepMachine_at_parse llm _ hnode]
    have e2 : machTrace llm q (3 * j + 2) =
        { node := Node.response_generator,
          state := tool_executor (parse_input (llm i0) s0), ninvoke := i0 + 1 } := by
      rw [machTrace_succ, e1, stepMachine_at_tool llm _ rfl]
    have e3 : machTrace llm q (3 * j + 3) =
        { node := if routeEnd (response_generator (tool_executor (parse_input (llm i0) s0)))
                  then Node.terminal else Node.parse_input,
          state := response_generator (tool_executor (parse_input (llm i0) s0)),
          ninvoke := i0 + 1 } := by
      rw [show 3 * j + 3 = (3 * j + 2) + 1 from rfl, machTrace_succ, e2,
        stepMachine_at_response llm _ rfl]
    have h33 : 3 * (j + 1) = 3 * j + 3 := by ring
    have hfin1 : (machTrace llm q (3 * j + 3)).state.final_answer = none := by
      have hh := h (j + 1) hle
      rwa [h33] at hh
    rcases respGen_cases (tool_executor (parse_input (llm i0) s0)) with ⟨t, hm, heq⟩ | ⟨hm, heq⟩
    · exfalso
      rw [e3] at hfin1
      have hx : (response_generator (tool_executor (parse_input (llm i0) s0))).final_answer
          = none := hfin1
      rw [heq] at hx
      simp at hx
    · have hstep2 : (tool_executor (parse_input (llm i0) s0)).current_step = j := by
        rw [tool_executor_step, parse_input_step]
        exact hstep
      have hfinX : (tool_executor (parse_input (llm i0) s0)).final_answer = none := by
        rw [tool_executor_final, parse_input_final]
        have hh := h j hj10
        rw [hs0]
        exact hh
      have hroutev : routeEnd (response_generator (tool_executor (parse_input (llm i0) s0)))
          = decide (10 ≤ j + 1) := by
        rw [heq]
        unfold routeEnd
        show (truthy (tool_executor (parse_input (llm i0) s0)).final_answer ||
            decide (10 ≤ (tool_executor (parse_input (llm i0) s0)).current_step + 1)) =
          decide (10 ≤ j + 1)
        rw [hfinX, hstep2]
        rfl
      constructor
      · rw [h33, e3]
        show (if routeEnd (response_generator (tool_executor (parse_input (llm i0) s0)))
              then Node.terminal else Node.parse_input) = _
        rw [hroutev]
        by_cases hj1 : j + 1 = 10
        · rw [if_pos hj1, hj1]
          rfl
        · rw [if_neg hj1]
          have hlt : ¬ (10 ≤ j + 1) := by omega
          simp [hlt]
      · rw [h33, e3]
        show (response_generator (tool_executor (parse_input (llm i0) s0))).current_step = j + 1
        rw [heq]
        show (tool_executor (parse_input (llm i0) s0)).current_step + 1 = j + 1
        rw [hstep2]

/-- C5: a run in which `final_answer` is never set reaches the step limit
after ten cycles and ends gracefully at END (it stays there forever), with
the HTTP response text equal to the fallback
`No answer generated within step limit.`. -/
theorem c5_step_limit (llm : Nat → String) (q : String)
    (h : ∀ i, i ≤ 10 → (machTrace llm q (3 * i)).state.final_answer = none) :
    (machTrace llm q 30).node = Node.terminal ∧
    (machTrace llm q 30).state.current_step = 10 ∧
    httpAnswer (machTrace llm q 30) = "No answer generated within step limit." ∧
    ∀ m, machTrace llm q (30 + m) = machTrace llm q 30 := by
  have h10 := c5_aux llm q h 10 (by omega)
  have hnode : (machTrace llm q 30).node = Node.terminal := by
    have hx := h10.1
    rw [if_pos rfl] at hx
    exact hx
  have hfin : (machTrace llm q 30).state.final_answer = none := h 10 (by omega)
  refine ⟨hnode, h10.2, ?_, ?_⟩
  · unfold httpAnswer
    rw [hfin]
    rfl
  · intro m
    have e : machTrace llm q (30 + m) = (stepMachine llm)^[m] (machTrace llm q 30) := by
      unfold machTrace
      rw [Nat.add_comm, Function.iterate_add_apply]
    rw [e]
    exact stepMachine_iterate_terminal llm _ hnode m

/-- C5 witness: end-to-end scenario B — a model that always requests
`Weather[NYC]` and never answers runs ten cycles and yields the fallback
response text. -/
theorem c5_step_limit_witness :
    (∀ i, i ≤ 10 →
      (machTrace llmB "What is the weather in NYC?" (3 * i)).state.final_answer = none) ∧
    (machTrace llmB "What is the weather in NYC?" 30).node = Node.terminal ∧
    httpAnswer (machTrace llmB "What is the weather in NYC?" 30) =
      "No answer generated within step limit." :=
  have h : ∀ i, i ≤ 10 →
      (machTrace llmB "What is the weather in NYC?" (3 * i)).state.final_answer = none := by
    decide
  ⟨h, (c5_step_limit llmB "What is the weather in NYC?" h).1,
    (c5_step_limit llmB "What is the weather in NYC?" h).2.2.1⟩
